import Mathlib

/-!
Verification of `check_build.py`, the pre-publish checklist script of the
swagger-sdk repository.

The script is a sequential checklist runner over the filesystem.  We embed it
shallowly: a filesystem state is a partial map from path strings to file
contents, each check is a pure function of that state, and a check that can
raise a Python exception (the version check raises `IndexError` on a
`__version__` line with no `=`) returns `Option Bool`, `none` standing for a
raised exception.  File contents are `String`s; line splitting and the
`str.split("=")` call are modelled on `List Char` by `splitCh`, which matches
Python's `str.split(sep)` for a one-character separator.  Python's
`str.strip(chars)` (strip all leading and trailing characters of a set) is
modelled by `stripWhile`.
-/

namespace CheckBuild

/-- A filesystem state: `fs p = some c` means path `p` exists and, when read
as a text file, has contents `c`; `none` means the path does not exist. -/
abbrev FS : Type := String → Option String

/-- Python `str.split(sep)` for a single-character separator `c`:
splits on every occurrence, keeping empty segments. -/
def splitCh (c : Char) : List Char → List (List Char)
  | [] => [[]]
  | x :: xs =>
    match splitCh c xs with
    | [] => [[x]]
    | r :: rs => if x = c then [] :: r :: rs else (x :: r) :: rs

/-- Strip all leading and trailing characters satisfying `p`
(Python `str.strip(chars)`). -/
def stripWhile (p : Char → Bool) (l : List Char) : List Char :=
  ((l.dropWhile p).reverse.dropWhile p).reverse

/-- ASCII whitespace stripped by Python `str.strip()` with no argument. -/
def isPyWs (c : Char) : Bool :=
  c = ' ' || c = '\t' || c = '\n' || c = '\r' || c = '\x0b' || c = '\x0c'

/-- Python `.strip()`. -/
def stripWs (l : List Char) : List Char := stripWhile isPyWs l

/-- Python `.strip('"')`. -/
def stripDq (l : List Char) : List Char := stripWhile (fun c => c = '"') l

/-- Python `.strip("'")`. -/
def stripApos (l : List Char) : List Char :=
  stripWhile (fun c => c = Char.ofNat 39) l

/-- Boolean substring test: does `needle` occur contiguously in `hay`
(Python's `in` on strings)? -/
def containsB (needle : List Char) : List Char → Bool
  | [] => needle.isEmpty
  | x :: t => needle.isPrefixOf (x :: t) || containsB needle t

/-- Python `check_file_exists(filepath)`: `os.path.exists`. -/
def check_file_exists (fs : FS) (filepath : String) : Bool :=
  (fs filepath).isSome

/-- The `required_files` list of `check_package_structure`. -/
def required_pkg_files : List String :=
  ["swagger_sdk/__init__.py",
   "swagger_sdk/builder.py",
   "swagger_sdk/models.py",
   "swagger_sdk/enums.py"]

/-- Python `check_package_structure()`: `all_exist` starts `True` and is cleared by
any missing file; the loop visits every file. -/
def check_package_structure (fs : FS) : Bool :=
  required_pkg_files.foldl
    (fun all_exist file => if check_file_exists fs file then all_exist else false)
    true

/-- The `required_files` list of `check_build_files`. -/
def required_build_files : List String :=
  ["pyproject.toml", "setup.py", "MANIFEST.in", "LICENSE", "README.md"]

/-- Python `check_build_files()`: same loop as `check_package_structure` over the
build-file list. -/
def check_build_files (fs : FS) : Bool :=
  required_build_files.foldl
    (fun all_exist file => if check_file_exists fs file then all_exist else false)
    true

/-- The `for line in f: if line.startswith("__version__"): ... break` loop:
the first line of the file starting with `__version__`, if any.  Python's
line iteration keeps the trailing newline, which only adds characters that
the later `.strip()` removes, so splitting on `'\n'` is faithful here. -/
def readVersionLine (content : String) : Option (List Char) :=
  (splitCh '\n' content.toList).find? (fun l => "__version__".toList.isPrefixOf l)

/-- Python `line.split("=")[1].strip().strip('"').strip("'")`: `none` models the
`IndexError` raised when the line has no `=`. -/
def parseVersion (line : List Char) : Option (List Char) :=
  ((splitCh '=' line)[1]?).map (fun raw => stripApos (stripDq (stripWs raw)))

/-- The literal pattern `f'version = "{version_in_init}"'` searched for in
`pyproject.toml`. -/
def versionPattern (v : List Char) : List Char :=
  "version = \"".toList ++ v ++ "\"".toList

/-- Python `check_version_consistency()`.  `none` models a raised exception
(`IndexError` from `parseVersion`); `some b` a returned boolean.  A version
line whose parsed value is empty falls into the `if not version_in_init`
branch, like the absent-line case. -/
def check_version_consistency (fs : FS) : Option Bool :=
  match fs "swagger_sdk/__init__.py" with
  | none => some false
  | some content =>
    match readVersionLine content with
    | none => some false
    | some line =>
      match parseVersion line with
      | none => none
      | some v =>
        if v = [] then some false
        else
          match fs "pyproject.toml" with
          | none => some true
          | some content2 => some (containsB (versionPattern v) content2.toList)

/-- The version value the code extracts from `swagger_sdk/__init__.py`,
when the file exists, a `__version__` line is found, and parsing does not
raise. -/
def extractedVersion (fs : FS) : Option (List Char) :=
  match fs "swagger_sdk/__init__.py" with
  | none => none
  | some content => (readVersionLine content).bind parseVersion

/-- Python `check_metadata()`: the email and username placeholders are searched only
in `pyproject.toml`, the author-name placeholder only in `setup.py`; the
check returns `False` exactly when the collected warning list is nonempty. -/
def check_metadata (fs : FS) : Bool :=
  let warnings_pyproject :=
    match fs "pyproject.toml" with
    | none => ([] : List String)
    | some content =>
      (if containsB "your.email@example.com".toList content.toList
       then ["[WARN] pyproject.toml 中的作者邮箱需要更新"] else [])
      ++ (if containsB "yourusername".toList content.toList
          then ["[WARN] pyproject.toml 中的 GitHub 用户名需要更新"] else [])
  let warnings_setup :=
    match fs "setup.py" with
    | none => ([] : List String)
    | some content =>
      if containsB "Your Name".toList content.toList
      then ["[WARN] setup.py 中的作者信息需要更新"] else []
  (warnings_pyproject ++ warnings_setup).isEmpty

/-- The ordered `checks` list of `main()`.  Checks that cannot raise in this
model are wrapped in `some`. -/
def checksList : List (String × (FS → Option Bool)) :=
  [("包结构", fun fs => some (check_package_structure fs)),
   ("版本一致性", check_version_consistency),
   ("构建文件", fun fs => some (check_build_files fs)),
   ("元数据", fun fs => some (check_metadata fs))]

/-- The `results` list built by `main`'s try/except loop: one entry per
check, a raised exception recorded as `False`. -/
def results (fs : FS) : List (String × Bool) :=
  checksList.map (fun p => (p.1, (p.2 fs).getD false))

/-- The summary loop of `main` (lines 139-144): accumulates the printed
per-check report lines and the `all_passed` flag in one pass. -/
def summarize (rs : List (String × Bool)) : List String × Bool :=
  rs.foldl
    (fun acc nr =>
      (acc.1 ++ [nr.1 ++ ": " ++ (if nr.2 then "[OK] 通过" else "[FAIL] 失败")],
       if nr.2 then acc.2 else false))
    ([], true)

/-- Python `main()`: returns the per-check report lines and the process exit code
(banner lines around the report are omitted from the model). -/
def main (fs : FS) : List String × Nat :=
  let s := summarize (results fs)
  (s.1, if s.2 then 0 else 1)

/-! ## Helper lemmas -/

/-- The `all_exist` loop of the two file-list checks computes the
conjunction of the existence tests. -/
theorem foldl_all_exist (p : String → Bool) (l : List String) (b : Bool) :
    l.foldl (fun all_exist file => if p file then all_exist else false) b
      = (b && l.all p) := by
  induction l generalizing b with
  | nil => simp
  | cons x xs ih =>
    rw [List.foldl_cons, ih, List.all_cons]
    cases hx : p x <;> cases b <;> simp [hx]

/-- The function `containsB` decides substring occurrence. -/
theorem containsB_iff (n h : List Char) : containsB n h = true ↔ n <:+: h := by
  induction h with
  | nil => simp [containsB, List.isEmpty_iff, List.infix_nil]
  | cons x t ih =>
    simp [containsB, Bool.or_eq_true, List.isPrefixOf_iff_prefix, ih,
      List.infix_cons_iff]

/-- The function `splitCh` never returns the empty list of segments. -/
theorem splitCh_ne_nil (c : Char) : ∀ l : List Char, splitCh c l ≠ []
  | [] => by simp [splitCh]
  | x :: xs => by
    rw [splitCh]
    cases h : splitCh c xs with
    | nil => simp
    | cons r rs => dsimp only; split <;> simp

/-- A list without the separator is a single segment. -/
theorem splitCh_not_mem {c : Char} : ∀ {l : List Char}, c ∉ l → splitCh c l = [l]
  | [], _ => rfl
  | x :: xs, h => by
    have hx : ¬ x = c := fun e => h (e ▸ List.mem_cons_self x xs)
    have hxs : c ∉ xs := fun m => h (List.mem_cons_of_mem x m)
    rw [splitCh, splitCh_not_mem hxs]
    simp [hx]

/-- Splitting at the first separator occurrence. -/
theorem splitCh_append (c : Char) (k v : List Char) (hk : c ∉ k) :
    splitCh c (k ++ c :: v) = k :: splitCh c v := by
  induction k with
  | nil =>
    rw [List.nil_append, splitCh]
    cases h : splitCh c v with
    | nil => exact absurd h (splitCh_ne_nil c v)
    | cons r rs => simp
  | cons x xs ih =>
    have hx : ¬ x = c := fun e => hk (e ▸ List.mem_cons_self x xs)
    have hxs : c ∉ xs := fun m => hk (List.mem_cons_of_mem x m)
    rw [List.cons_append, splitCh, ih hxs]
    simp [hx]

/-- On a proper single-`=` assignment line, `parseVersion` returns the text
after the `=`, stripped of whitespace and quotes. -/
theorem parseVersion_single_eq (k v : List Char) (hk : '=' ∉ k) (hv : '=' ∉ v) :
    parseVersion (k ++ '=' :: v) = some (stripApos (stripDq (stripWs v))) := by
  simp [parseVersion, splitCh_append '=' k v hk, splitCh_not_mem hv]

/-- The function `find?` returns the first element satisfying the predicate: everything
before it in the list fails the predicate. -/
theorem find?_split {α : Type} (p : α → Bool) :
    ∀ (l : List α) (a : α), l.find? p = some a →
      p a = true ∧ ∃ l1 l2, l = l1 ++ a :: l2 ∧ ∀ x ∈ l1, p x = false
  | [], a, h => by simp [List.find?] at h
  | x :: xs, a, h => by
    cases hx : p x with
    | true =>
      rw [List.find?_cons_of_pos _ hx, Option.some_inj] at h
      subst h
      exact ⟨hx, [], xs, rfl, by simp⟩
    | false =>
      rw [List.find?_cons_of_neg _ (by simp [hx])] at h
      obtain ⟨h1, l1, l2, e, hall⟩ := find?_split p xs a h
      exact ⟨h1, x :: l1, l2, by rw [e, List.cons_append], by
        intro y hy
        rcases List.mem_cons.mp hy with rfl | hy
        · exact hx
        · exact hall y hy⟩

/-- The summary loop: the accumulated report lines are one line per result
in order, and the accumulated flag is the conjunction of the results. -/
theorem summarize_eq (rs : List (String × Bool)) :
    summarize rs =
      (rs.map (fun r => r.1 ++ ": " ++ (if r.2 then "[OK] 通过" else "[FAIL] 失败")),
       rs.all fun r => r.2) := by
  suffices h : ∀ (acc : List String) (b : Bool),
      rs.foldl
        (fun acc nr =>
          (acc.1 ++ [nr.1 ++ ": " ++ (if nr.2 then "[OK] 通过" else "[FAIL] 失败")],
           if nr.2 then acc.2 else false))
        (acc, b)
        = (acc ++ rs.map (fun r => r.1 ++ ": " ++ (if r.2 then "[OK] 通过" else "[FAIL] 失败")),
           b && rs.all fun r => r.2) by
    simpa only [List.nil_append, Bool.true_and] using h [] true
  induction rs with
  | nil => simp
  | cons r rs ih =>
    intro acc b
    rw [List.foldl_cons]
    show List.foldl _
      (acc ++ [r.1 ++ ": " ++ (if r.2 then "[OK] 通过" else "[FAIL] 失败")],
       if r.2 then b else false) rs = _
    rw [ih, List.all_cons]
    cases hr : r.2 <;> cases b <;> simp [hr]

/-! ## Concrete filesystem states used in witnesses and counterexamples -/

/-- Only `swagger_sdk/__init__.py` exists, with a well-formed version line. -/
def fsInitOnly : FS := fun p =>
  if p = "swagger_sdk/__init__.py" then some "__version__ = \"1.0.0\"\n" else none

/-- Both `__init__.py` and a `pyproject.toml` with the matching version pattern. -/
def fsMatching : FS := fun p =>
  if p = "swagger_sdk/__init__.py" then some "__version__ = \"1.0.0\"\n"
  else if p = "pyproject.toml" then some "[project]\nversion = \"1.0.0\"\n"
  else none

/-- An `__init__.py` whose first `__version__` line has no `=`: reading it makes
`check_version_consistency` raise `IndexError`. -/
def fsRaise : FS := fun p =>
  if p = "swagger_sdk/__init__.py" then some "__version__\n" else none

/-- The author-name placeholder sits in `pyproject.toml` while `setup.py` is
clean. -/
def fsPlaceholderSwap : FS := fun p =>
  if p = "pyproject.toml" then some "author = \"Your Name\"\n"
  else if p = "setup.py" then some "from setuptools import setup\n"
  else none

/-- The version line assigns the empty string, and `pyproject.toml` even
contains the pattern an empty version would match. -/
def fsEmptyVersion : FS := fun p =>
  if p = "swagger_sdk/__init__.py" then some "__version__ = \"\"\n"
  else if p = "pyproject.toml" then some "version = \"\"\n"
  else none

/-- The empty filesystem. -/
def fsEmpty : FS := fun _ => none

/-! ## Claims -/

/-- C5: for each of the two file-list checks and every filesystem state, the
check returns true iff every path in its fixed required-file list exists at
invocation time. -/
theorem file_list_checks_true_iff (fs : FS) :
    (check_package_structure fs = true ↔
      ∀ p ∈ required_pkg_files, check_file_exists fs p = true) ∧
    (check_build_files fs = true ↔
      ∀ p ∈ required_build_files, check_file_exists fs p = true) := by
  constructor
  · rw [check_package_structure, foldl_all_exist]
    simp [List.all_eq_true]
  · rw [check_build_files, foldl_all_exist]
    simp [List.all_eq_true]

/-- C9: when neither `pyproject.toml` nor `setup.py` exists, the
metadata-placeholder check returns true: absence of the scanned files is
silently treated as a pass. -/
theorem metadata_check_missing_files (fs : FS)
    (h1 : fs "pyproject.toml" = none) (h2 : fs "setup.py" = none) :
    check_metadata fs = true := by
  simp [check_metadata, h1, h2]

/-- Witness for C9 at the empty filesystem. -/
theorem metadata_check_missing_files_witness : check_metadata fsEmpty = true :=
  metadata_check_missing_files fsEmpty rfl rfl

/-- C10: a version line whose parsed value is the empty string falls into
the `if not version_in_init` branch: the check returns false without ever
comparing against the second file. -/
theorem empty_version_returns_false (fs : FS) (content : String)
    (line : List Char)
    (h1 : fs "swagger_sdk/__init__.py" = some content)
    (h2 : readVersionLine content = some line)
    (h3 : parseVersion line = some []) :
    check_version_consistency fs = some false := by
  simp [check_version_consistency, h1, h2, h3]

/-- Witness for C10: `__version__ = ""` yields false even though
`pyproject.toml` contains `version = ""`, which an empty version would
match — so the check really did not compare. -/
theorem empty_version_returns_false_witness :
    check_version_consistency fsEmptyVersion = some false :=
  empty_version_returns_false fsEmptyVersion "__version__ = \"\"\n"
    "__version__ = \"\"".toList (by decide) (by decide) (by decide)

/-- C3: when the first metadata file exists, a nonempty version is extracted
from it, and `pyproject.toml` is absent, the check returns true (the lenient
no-contradiction-found fallback of the final `return True`). -/
theorem version_check_missing_pyproject (fs : FS) (content : String)
    (line v : List Char)
    (h1 : fs "swagger_sdk/__init__.py" = some content)
    (h2 : readVersionLine content = some line)
    (h3 : parseVersion line = some v)
    (h4 : v ≠ [])
    (h5 : fs "pyproject.toml" = none) :
    check_version_consistency fs = some true := by
  simp [check_version_consistency, h1, h2, h3, h4, h5]

/-- Witness for C3. -/
theorem version_check_missing_pyproject_witness :
    check_version_consistency fsInitOnly = some true :=
  version_check_missing_pyproject fsInitOnly "__version__ = \"1.0.0\"\n"
    "__version__ = \"1.0.0\"".toList "1.0.0".toList (by decide) (by decide)
    (by decide) (by decide) (by decide)

/-- C4: a check whose function raises is caught by the runner's try/except:
it is recorded as failed at its position, and the results list still has one
entry per check of the list, each remaining check having been invoked. -/
theorem exception_contained (fs : FS) (i : Nat)
    (c : String × (FS → Option Bool))
    (hc : checksList[i]? = some c) (hraise : c.2 fs = none) :
    (results fs).length = checksList.length ∧
    (results fs)[i]? = some (c.1, false) ∧
    results fs = checksList.map (fun p => (p.1, (p.2 fs).getD false)) := by
  refine ⟨by simp [results], ?_, rfl⟩
  rw [results, List.getElem?_map, hc]
  simp [hraise]

/-- Witness for C4: on `fsRaise` the version check raises `IndexError`
(modelled as `none`); the runner records it as failed and the other three
checks still produce their entries. -/
theorem exception_contained_witness :
    (results fsRaise).length = checksList.length ∧
    (results fsRaise)[1]? = some ("版本一致性", false) ∧
    results fsRaise = checksList.map (fun p => (p.1, (p.2 fsRaise).getD false)) :=
  exception_contained fsRaise 1 ("版本一致性", check_version_consistency) rfl
    (by decide)

/-- C6: the version is extracted from the first `__version__` line (the text
before the first `=` is the key; on a single-`=` assignment line the value
is the text after `=`, stripped of whitespace and quotes); the check returns
false when the file is absent or when no version line is found; and the
extracted value is exactly what is compared against the second file. -/
theorem version_extraction_rule (fs : FS) :
    (fs "swagger_sdk/__init__.py" = none →
      check_version_consistency fs = some false) ∧
    (∀ content, fs "swagger_sdk/__init__.py" = some content →
      readVersionLine content = none →
      check_version_consistency fs = some false) ∧
    (∀ content line, readVersionLine content = some line →
      "__version__".toList.isPrefixOf line = true ∧
      ∃ pre post, splitCh '\n' content.toList = pre ++ line :: post ∧
        ∀ l ∈ pre, "__version__".toList.isPrefixOf l = false) ∧
    (∀ k v, '=' ∉ k → '=' ∉ v →
      parseVersion (k ++ '=' :: v) = some (stripApos (stripDq (stripWs v)))) ∧
    (∀ content line v, fs "swagger_sdk/__init__.py" = some content →
      readVersionLine content = some line → parseVersion line = some v →
      v ≠ [] →
      check_version_consistency fs =
        (match fs "pyproject.toml" with
         | none => some true
         | some c2 => some (containsB (versionPattern v) c2.toList))) := by
  refine ⟨?_, ?_, ?_, ?_, ?_⟩
  · intro h; simp [check_version_consistency, h]
  · intro content h1 h2; simp [check_version_consistency, h1, h2]
  · intro content line h; exact find?_split _ _ _ h
  · intro k v hk hv; exact parseVersion_single_eq k v hk hv
  · intro content line v h1 h2 h3 h4
    simp [check_version_consistency, h1, h2, h3, h4]

/-- Witness for C6, exercising the single-`=` extraction rule at a concrete
assignment line. -/
theorem version_extraction_rule_witness :
    parseVersion ("__version__ ".toList ++ '=' :: " \"1.0.0\"".toList) =
      some (stripApos (stripDq (stripWs " \"1.0.0\"".toList))) :=
  (version_extraction_rule fsEmpty).2.2.2.1 "__version__ ".toList
    " \"1.0.0\"".toList (by decide) (by decide)

/-- C1: the exit code is 1 iff at least one of the four checks returned
false or raised (for the version check, "raised" is the `none` outcome);
otherwise it is 0. -/
theorem exit_code_iff (fs : FS) :
    ((main fs).2 = 1 ↔
      (check_package_structure fs = false ∨
       check_version_consistency fs = some false ∨
       check_version_consistency fs = none ∨
       check_build_files fs = false ∨
       check_metadata fs = false)) ∧
    ((main fs).2 = 0 ↔
      (check_package_structure fs = true ∧
       check_version_consistency fs = some true ∧
       check_build_files fs = true ∧
       check_metadata fs = true)) := by
  have hcases : ∀ o : Option Bool, o = none ∨ o = some false ∨ o = some true := by
    intro o
    rcases o with _ | b
    · exact Or.inl rfl
    · cases b
      · exact Or.inr (Or.inl rfl)
      · exact Or.inr (Or.inr rfl)
  rcases hcases (check_version_consistency fs) with hv | hv | hv <;>
    cases hp : check_package_structure fs <;>
    cases hb : check_build_files fs <;>
    cases hm : check_metadata fs <;>
    simp [main, summarize_eq, results, checksList, hp, hv, hb, hm]

/-- C8: the runner invokes the four checks in their listed order, recording
exactly one result per check; the report carries one line per result in the
same order, and the exit code is computed from exactly these results. -/
theorem runner_order_and_report (fs : FS) :
    results fs =
      [("包结构", check_package_structure fs),
       ("版本一致性", (check_version_consistency fs).getD false),
       ("构建文件", check_build_files fs),
       ("元数据", check_metadata fs)] ∧
    (results fs).map Prod.fst = ["包结构", "版本一致性", "构建文件", "元数据"] ∧
    (main fs).1 = (results fs).map
      (fun r => r.1 ++ ": " ++ (if r.2 then "[OK] 通过" else "[FAIL] 失败")) ∧
    (main fs).2 = (if ((results fs).all fun r => r.2) then 0 else 1) := by
  refine ⟨rfl, rfl, ?_, ?_⟩
  · show (summarize (results fs)).1 = _
    rw [summarize_eq]
  · show (if (summarize (results fs)).2 then 0 else 1) = _
    rw [summarize_eq]

/-- C2 counterexample: on `fsInitOnly` a version is extracted, the second
metadata file does not exist — so nothing can "appear inside the second
metadata file's contents" — and yet the check returns true.  The claimed
biconditional therefore fails at this filesystem state. -/
theorem version_iff_counterexample :
    extractedVersion fsInitOnly = some "1.0.0".toList ∧
    fsInitOnly "pyproject.toml" = none ∧
    check_version_consistency fsInitOnly = some true :=
  ⟨by decide, by decide, by decide⟩

/-- C2 amended: when the second metadata file exists with contents `c2`, the
check returns true iff a nonempty version was extracted from the first file
by the key=value line rule and the literal pattern built from it occurs
verbatim in `c2`; when the second file is absent the check returns true
whenever a nonempty version was extracted (see C3). -/
theorem version_consistency_iff (fs : FS) (c2 : String)
    (h : fs "pyproject.toml" = some c2) :
    (check_version_consistency fs = some true ↔
      ∃ v, extractedVersion fs = some v ∧ v ≠ [] ∧
        versionPattern v <:+: c2.toList) := by
  cases h1 : fs "swagger_sdk/__init__.py" with
  | none => simp [check_version_consistency, extractedVersion, h1]
  | some content =>
    cases h2 : readVersionLine content with
    | none => simp [check_version_consistency, extractedVersion, h1, h2]
    | some line =>
      cases h3 : parseVersion line with
      | none => simp [check_version_consistency, extractedVersion, h1, h2, h3]
      | some v =>
        by_cases h4 : v = []
        · simp [check_version_consistency, extractedVersion, h1, h2, h3, h4]
        · simp [check_version_consistency, extractedVersion, h1, h2, h3, h4,
            h, containsB_iff]

/-- Witness for the amended C2 on a filesystem where the versions match. -/
theorem version_consistency_iff_witness :
    check_version_consistency fsMatching = some true :=
  (version_consistency_iff fsMatching "[project]\nversion = \"1.0.0\"\n"
      (by decide)).mpr
    ⟨"1.0.0".toList, by decide, by decide, (containsB_iff _ _).mp (by decide)⟩

/-- C7 counterexample: the author-name placeholder is present in
`pyproject.toml` — one of the two scanned metadata files — yet the check
returns true, because the code searches each placeholder only in one
designated file ("Your Name" only in `setup.py`). -/
theorem placeholder_counterexample :
    containsB "Your Name".toList "author = \"Your Name\"\n".toList = true ∧
    fsPlaceholderSwap "pyproject.toml" = some "author = \"Your Name\"\n" ∧
    check_metadata fsPlaceholderSwap = true :=
  ⟨by decide, by decide, by decide⟩

/-- C7 amended: the check returns false iff the email or username
placeholder occurs in `pyproject.toml`, or the author-name placeholder
occurs in `setup.py` (each placeholder is searched only in its designated
file). -/
theorem placeholder_check_iff (fs : FS) :
    check_metadata fs = false ↔
      ((∃ c, fs "pyproject.toml" = some c ∧
         ("your.email@example.com".toList <:+: c.toList ∨
          "yourusername".toList <:+: c.toList)) ∨
       (∃ c, fs "setup.py" = some c ∧ "Your Name".toList <:+: c.toList)) := by
  cases h1 : fs "pyproject.toml" with
  | none =>
    cases h2 : fs "setup.py" with
    | none => simp [check_metadata, h1, h2]
    | some c2 =>
      cases hb3 : containsB "Your Name".toList c2.toList <;>
        simp only [check_metadata, h1, h2, hb3, ← containsB_iff] <;>
          simp_all
  | some c1 =>
    cases h2 : fs "setup.py" with
    | none =>
      cases hb1 : containsB "your.email@example.com".toList c1.toList <;>
        cases hb2 : containsB "yourusername".toList c1.toList <;>
          simp only [check_metadata, h1, h2, hb1, hb2, ← containsB_iff] <;>
            simp_all
    | some c2 =>
      cases hb1 : containsB "your.email@example.com".toList c1.toList <;>
        cases hb2 : containsB "yourusername".toList c1.toList <;>
          cases hb3 : containsB "Your Name".toList c2.toList <;>
            simp only [check_metadata, h1, h2, hb1, hb2, hb3,
              ← containsB_iff] <;> simp_all


end CheckBuild
